import Mathlib

/-!
Verification of the AquaLink player runtime (src/build/structures) against its
specification.  JavaScript numbers are modelled as rationals; a value whose
numeric coercion is NaN is modelled as `none`.  Asynchronous results (resume
attempts, track resolution, autoplay candidates) are passed in as explicit
oracle parameters, and observable side effects (emitted events, REST requests)
are returned as values.
-/

set_option maxHeartbeats 1000000

namespace AquaLink

/-- Decidable equality for `Except`, used to evaluate fallible operations on
concrete inputs. -/
instance {ε α : Type} [DecidableEq ε] [DecidableEq α] : DecidableEq (Except ε α) :=
  fun a b =>
    match a, b with
    | .error x, .error y =>
      match decEq x y with
      | .isTrue h => .isTrue (h ▸ rfl)
      | .isFalse h => .isFalse fun hc => h (Except.error.inj hc)
    | .error _, .ok _ => .isFalse fun hc => Except.noConfusion hc
    | .ok _, .error _ => .isFalse fun hc => Except.noConfusion hc
    | .ok x, .ok y =>
      match decEq x y with
      | .isTrue h => .isTrue (h ▸ rfl)
      | .isFalse h => .isFalse fun hc => h (Except.ok.inj hc)

/-- Track carrier (src/build/structures: queue items handled by Player).
`encoded` is the item's `track` blob (absent while unresolved);
`resolveEncoded` models the result of `item.resolve(aqua)`: `none` means the
resolution throws, `some e` means it yields a track object whose `track`
field is `e`.  `length` is `info.length` (ms). -/
structure Track where
  encoded : Option String
  resolveEncoded : Option (Option String)
  sourceName : Option String
  identifier : Option String
  length : ℚ
deriving DecidableEq

/-- Mutable per-guild Player state (src/build/structures/Player.js fields used
by the verified operations; `reconnecting` is the source's `_reconnecting`).
The free-form `_dataStore` user map and UI message handle are not modelled. -/
structure PlayerState where
  destroyed : Bool
  connected : Bool
  playing : Bool
  paused : Bool
  isAutoplayEnabled : Bool
  isAutoplay : Bool
  reconnecting : Bool
  leaveOnEnd : Bool
  current : Option Track
  queue : List Track
  previousTracks : List Track
  previousIdentifiers : List String
  autoplaySeed : Option String
  loop : ℚ
  volume : ℚ
  position : ℚ
  timestamp : ℚ
  voiceChannel : Option String
  textChannel : Option String
  deaf : Bool
  mute : Bool
deriving DecidableEq

namespace Player

/-- Player.js `_functions.clamp`: `+v` is NaN (`none`) ↦ 100, below 0 ↦ 0,
above 200 ↦ 200, otherwise the number itself. -/
def clamp (v : Option ℚ) : ℚ :=
  match v with
  | none => 100
  | some num => if num < 0 then 0 else if num > 200 then 200 else num

/-- Player.js `setVolume(volume)`. -/
def setVolume (p : PlayerState) (v : Option ℚ) : PlayerState :=
  let vol := clamp v
  if p.destroyed = true ∨ p.volume = vol then p
  else { p with volume := vol }

/-- Player.js `LOOP_MODE_NAMES.indexOf(mode)` on the frozen array
`['none', 'track', 'queue']` (−1 when absent). -/
def loopNameIndex (s : String) : ℚ :=
  if s = "none" then 0
  else if s = "track" then 1
  else if s = "queue" then 2
  else -1

/-- Player.js `setLoop(mode)`.  A JS number argument is `Sum.inl`, a string is
`Sum.inr`.  The error is thrown before `this.loop` is assigned, so the state
is unchanged on failure. -/
def setLoop (p : PlayerState) (mode : ℚ ⊕ String) : Except String PlayerState :=
  if p.destroyed = true then .ok p
  else
    let idx : ℚ :=
      match mode with
      | .inl q => q
      | .inr s => loopNameIndex s
    if idx < 0 ∨ idx > 2 then .error "Invalid loop mode"
    else .ok { p with loop := idx }

/-- CircularBuffer push with capacity PREVIOUS_TRACKS_SIZE = 50; the newest
entry is kept at the head (`getLast`). -/
def pushPrevious (prevs : List Track) (t : Track) : List Track :=
  (t :: prevs).take 50

/-- Player.js `previous` getter: `previousTracks.getLast()`. -/
def previous (p : PlayerState) : Option Track :=
  p.previousTracks.head?

/-- Player.js `clearData()`: clears history, identifiers, current track,
position/timestamp and the queue. -/
def clearData (p : PlayerState) : PlayerState :=
  { p with previousTracks := [], previousIdentifiers := [], current := none,
           position := 0, timestamp := 0, queue := [] }

/-- Player.js `play()`.  Dequeues the head item; an item that already carries
an encoded blob becomes `current` directly, otherwise `item.resolve` is
consulted (`resolveEncoded`).  A failure (`throw`) is caught and `play`
retries while the queue is non-empty. -/
def play (p : PlayerState) : PlayerState :=
  match h : p.queue with
  | [] => p
  | item :: rest =>
    if p.destroyed = true ∨ p.connected = false then p
    else
      let resolvedOpt : Option Track :=
        if item.encoded.isSome then some item
        else item.resolveEncoded.map (fun e => { item with encoded := e })
      match resolvedOpt with
      | none =>
        if rest.isEmpty then { p with queue := rest }
        else play { p with queue := rest }
      | some cur =>
        if cur.encoded.isSome then
          { p with current := some cur, playing := true, paused := false,
                   position := 0, queue := rest }
        else
          if rest.isEmpty then { p with current := some cur, queue := rest }
          else play { p with current := some cur, queue := rest }
termination_by p.queue.length
decreasing_by
  all_goals simp [h]

/-- Player.js `stop()`. -/
def stop (p : PlayerState) : PlayerState :=
  if p.destroyed = true ∨ p.playing = false then p
  else { p with playing := false, paused := false, position := 0 }

/-- Player.js `pause(paused)`. -/
def pause (p : PlayerState) (b : Bool) : PlayerState :=
  if p.destroyed = true ∨ p.paused = b then p
  else { p with paused := b }

/-- Player.js `seek(position)` (the argument is relative unless 0). -/
def seek (p : PlayerState) (pos : ℚ) : PlayerState :=
  if p.destroyed = true ∨ p.playing = false then p
  else
    let len : ℚ := match p.current with
      | some t => t.length
      | none => 0
    let posCalc : ℚ := if pos = 0 then 0 else p.position + pos
    let clamped : ℚ := if len = 0 then max posCalc 0 else min (max posCalc 0) len
    { p with position := clamped }

/-- Player.js `destroy(options)`: the state fields tracked here are cleared
the same way for every `options` value (`preserveClient`/`skipRemote` only
control remote calls and back references). -/
def destroy (p : PlayerState) : PlayerState :=
  { p with destroyed := true, connected := false, playing := false,
           paused := false, isAutoplay := false, reconnecting := false,
           voiceChannel := none, current := none, queue := [],
           previousTracks := [], previousIdentifiers := [],
           autoplaySeed := none }

/-- Player.js `trackStart(player, track)`. -/
def trackStart (p : PlayerState) : PlayerState :=
  if p.destroyed = true then p
  else { p with playing := true, paused := false }

/-- The spotify branch of Player.js `autoplay()`: remembers the previous
identifier in the capped `previousIdentifiers` set (PREVIOUS_IDS_MAX = 20,
oldest evicted) and fixes the `autoplaySeed` on first use. -/
def spotifySeedUpdate (p : PlayerState) (prev : Track) : PlayerState :=
  match prev.sourceName, prev.identifier with
  | some "spotify", some id =>
    let ids :=
      if id ∈ p.previousIdentifiers then p.previousIdentifiers
      else p.previousIdentifiers ++ [id]
    let ids2 := if 20 < ids.length then ids.tail else ids
    let seed := if p.autoplaySeed.isNone then some id else p.autoplaySeed
    { p with previousIdentifiers := ids2, autoplaySeed := seed }
  | _, _ => p

/-- Player.js `autoplay()`.  The provider lookups inside the retry loop are
abstracted by `oracle`: `some t` means some iteration produced candidate `t`,
`none` means all AUTOPLAY_MAX attempts failed (then `stop()` runs);
`autoplayRetries` accounting is not modelled. -/
def autoplay (p : PlayerState) (oracle : Option Track) : PlayerState :=
  if p.destroyed = true ∨ p.isAutoplayEnabled = false ∨ (previous p).isNone ∨
     p.queue ≠ [] then p
  else
    match previous p with
    | none => p
    | some prev =>
      if prev.sourceName.isNone ∨ prev.identifier.isNone then p
      else
        let p2 := spotifySeedUpdate { p with isAutoplay := true } prev
        match oracle with
        | some t => play { p2 with queue := p2.queue ++ [t] }
        | none => stop p2

/-- Player.js: `reason === 'loadFailed' || reason === 'cleanup'`. -/
def isFailureReason (reason : String) : Bool :=
  reason == "loadFailed" || reason == "cleanup"

/-- Player.js `trackEnd(player, track, payload)`.  `track` is the ended track
(`this.current` at dispatch time), `reason` is `payload.reason`, and `oracle`
feeds the autoplay branch (see `autoplay`). -/
def trackEnd (p : PlayerState) (track : Option Track) (reason : String)
    (oracle : Option Track) : PlayerState :=
  if p.destroyed = true then p
  else
    let p1 :=
      match track with
      | some t => { p with previousTracks := pushPrevious p.previousTracks t }
      | none => p
    let p2 := { p1 with current := none }
    if isFailureReason reason then
      if p2.queue = [] then clearData p2
      else play p2
    else
      let p3 :=
        match track with
        | some t =>
          if reason == "finished" ∧ (p2.loop = 1 ∨ p2.loop = 2) then
            { p2 with queue := p2.queue ++ [t] }
          else p2
        | none => p2
      if p3.queue ≠ [] then play p3
      else if p3.isAutoplayEnabled = true ∧ reason ≠ "replaced" then
        autoplay p3 oracle
      else
        let p4 := { p3 with playing := false }
        if p4.leaveOnEnd = true then destroy (clearData p4)
        else p4

/-- Player.js `trackError` / `trackStuck`: surface the event and `stop()`. -/
def trackError (p : PlayerState) : PlayerState :=
  if p.destroyed = true then p else stop p

/-- The value of the `previous` getter right after `trackEnd` has pushed the
ended track: the ended track itself when there was one, otherwise the
unchanged history head. -/
def prevAfterEnd (p : PlayerState) (track : Option Track) : Option Track :=
  match track with
  | some t => some t
  | none => previous p

/-- Snapshot captured by `socketClosed` before the reconnection sequence. -/
structure StateSnapshot where
  volume : ℚ
  position : ℚ
  paused : Bool
  loop : ℚ
  isAutoplayEnabled : Bool
  currentTrack : Option Track
  queue : List Track
  previousIdentifiers : List String
  autoplaySeed : Option String
deriving DecidableEq

/-- The snapshot `socketClosed` builds from the live Player state. -/
def mkSnapshot (p : PlayerState) : StateSnapshot :=
  ⟨p.volume, p.position, p.paused, p.loop, p.isAutoplayEnabled, p.current,
   p.queue, p.previousIdentifiers, p.autoplaySeed⟩

/-- Observable outcome of `Player.socketClosed`. -/
inductive SocketClosedEffect where
  | unchanged
  | emitSocketClosed
  | destroyAfterEmit
  | resumeSucceeded
  | beginReconnect (snapshot : StateSnapshot)
      (preserveClient skipRemote : Bool) (maxAttempts : ℕ)
deriving DecidableEq

/-- Player.js RECONNECT_MAX. -/
def RECONNECT_MAX : ℕ := 3

/-- Player.js `socketClosed(player, track, payload)`.  `resumeOk` models
`_attemptVoiceResume()` resolving (Connection.attemptResume returned true and
a playerUpdate confirmation arrived within RESUME_TIMEOUT). -/
def socketClosed (p : PlayerState) (code : ℤ) (resumeOk : Bool) :
    SocketClosedEffect :=
  if p.destroyed = true then .unchanged
  else if code = 4022 then .destroyAfterEmit
  else if code = 4015 ∧ resumeOk = true then .resumeSucceeded
  else if ¬(code = 4015 ∨ code = 4009 ∨ code = 4006) then .emitSocketClosed
  else if p.reconnecting = true then .unchanged
  else
    match p.voiceChannel with
    | none => .emitSocketClosed
    | some _ => .beginReconnect (mkSnapshot p) true true RECONNECT_MAX

/-- The invariant claimed in §8: `playing ⇒ current ≠ null`. -/
def Inv (p : PlayerState) : Prop := p.playing = true → p.current ≠ none

instance (p : PlayerState) : Decidable (Inv p) := by
  unfold Inv
  infer_instance

end Player

namespace Connection

/-- Voice-session state of src/build/structures/Connection.js as read by the
flush path.  `pending` holds the scheduled update's timestamp (the payload
body is refilled from the live fields, so only the timestamp matters for the
flush decision); `channelId` is `player.voiceChannel` and `volume` is
`player.volume` as read by `_makeVoiceKey` and `fillVoicePayload`. -/
structure ConnState where
  destroyed : Bool
  sessionId : Option String
  token : Option String
  endpoint : Option String
  channelId : Option String
  volume : ℚ
  lastSentVoiceKey : String
  pending : Option ℕ
deriving DecidableEq

/-- Connection.js UPDATE_TIMEOUT (ms). -/
def UPDATE_TIMEOUT : ℕ := 4000

/-- Connection.js `_makeVoiceKey()`:
`sessionId|token|endpoint|channelId|volume` with empty strings for missing
parts. -/
def _makeVoiceKey (c : ConnState) : String :=
  (c.sessionId.getD "") ++ "|" ++ (c.token.getD "") ++ "|" ++
  (c.endpoint.getD "") ++ "|" ++ (c.channelId.getD "") ++ "|" ++
  toString c.volume

/-- Connection.js `_executeVoiceUpdate()` at wall-clock `now`.  The first
component is `some key` when the pending payload is passed to
`RestClient.updatePlayer` (key = fingerprint sent) and `none` when it is
dropped; the second is the connection state afterwards. -/
def _executeVoiceUpdate (c : ConnState) (now : ℕ) : Option String × ConnState :=
  if c.destroyed = true then (none, c)
  else
    match c.pending with
    | none => (none, c)
    | some ts =>
      let c1 := { c with pending := none }
      if UPDATE_TIMEOUT < now - ts then (none, c1)
      else
        let key := _makeVoiceKey c1
        if key = c1.lastSentVoiceKey then (none, c1)
        else (some key, { c1 with lastSentVoiceKey := key })

/-- Connection.js `_functions.extractRegion`: JS `String.prototype.trim` on a
character list. -/
def jsTrim (l : List Char) : List Char :=
  ((l.dropWhile Char.isWhitespace).reverse.dropWhile Char.isWhitespace).reverse

/-- Remainder after the first occurrence of `://`, if any
(`endpoint.indexOf('://')` + slice). -/
def afterProto : List Char → Option (List Char)
  | ':' :: '/' :: '/' :: rest => some rest
  | _ :: rest => afterProto rest
  | [] => none

/-- Matches the regex `^c-([a-z]{3})(?:\d+)?(?:-|$)` against the label and
returns the captured three-letter code. -/
def cRegionMatch (l : List Char) : Option String :=
  match l with
  | 'c' :: '-' :: x :: y :: z :: rest =>
    if x.isLower && y.isLower && z.isLower then
      let rest2 := rest.dropWhile Char.isDigit
      if rest2 = [] ∨ rest2.head? = some '-' then some (String.mk [x, y, z])
      else none
    else none
  | _ => none

/-- Attempts the body `([a-z]{3})(?:\d+)?(?:-|$)` at the head of `l`. -/
def tokenMatchAt (l : List Char) : Option String :=
  match l with
  | x :: y :: z :: rest =>
    if x.isLower && y.isLower && z.isLower then
      let rest2 := rest.dropWhile Char.isDigit
      if rest2 = [] ∨ rest2.head? = some '-' then some (String.mk [x, y, z])
      else none
    else none
  | _ => none

/-- Leftmost match of `(?:^|-)([a-z]{3})(?:\d+)?(?:-|$)` (the fallback token
regex); `canStart` records whether the current position may begin a match
(start of string or just after a `-`). -/
def tokenRegionScan : List Char → Bool → Option String
  | [], _ => none
  | ch :: rest, canStart =>
    if canStart then
      match tokenMatchAt (ch :: rest) with
      | some s => some s
      | none => tokenRegionScan rest (ch == '-')
    else tokenRegionScan rest (ch == '-')

/-- Connection.js `_functions.extractRegion(endpoint)`: trim, strip protocol,
path and port, take the first hostname label lowercased, then try the
`c-<aaa><digits>-` pattern, the generic three-letter token, and finally the
label with trailing digits stripped. -/
def extractRegion (endpoint : String) : String :=
  let e := jsTrim endpoint.toList
  if e = [] then "unknown"
  else
    let e1 := (afterProto e).getD e
    let e2 := e1.takeWhile (fun c => c ≠ '/')
    let e3 := e2.takeWhile (fun c => c ≠ ':')
    let label := (e3.takeWhile (fun c => c ≠ '.')).map Char.toLower
    if label = [] then "unknown"
    else
      match cRegionMatch label with
      | some region => region
      | none =>
        match tokenRegionScan label true with
        | some region => region
        | none =>
          let stripped := ((label.reverse).dropWhile Char.isDigit).reverse
          if stripped = [] then "unknown" else String.mk stripped

end Connection

namespace Rest

/-- Rest.js BASE64_LOOKUP: the bytes marked valid are `A–Z`, `a–z`, `0–9`,
`+`, `/`, `=`, `_`, `-`. -/
def isBase64Code (c : Char) : Bool :=
  (65 ≤ c.toNat && c.toNat ≤ 90) || (97 ≤ c.toNat && c.toNat ≤ 122) ||
  (48 ≤ c.toNat && c.toNat ≤ 57) ||
  c.toNat == 43 || c.toNat == 47 || c.toNat == 61 || c.toNat == 95 ||
  c.toNat == 45

/-- Rest.js `_isValidBase64(str)`: non-empty, length mod 4 ≠ 1, and every
character in the lookup table. -/
def _isValidBase64 (s : String) : Bool :=
  if s = "" then false
  else if s.length % 4 == 1 then false
  else s.toList.all isBase64Code

/-- Hexadecimal digit used by the percent-encoder. -/
def hexDigit (n : ℕ) : Char :=
  if n < 10 then Char.ofNat (48 + n) else Char.ofNat (55 + n)

/-- JS `encodeURIComponent` over the UTF-8 bytes of the string: unreserved
characters (`A–Z a–z 0–9 - _ . ! ~ * ( )` and the apostrophe, byte 39) pass
through; every other byte becomes `%XX`. -/
def encodeURIComponentStr (s : String) : String :=
  String.mk (s.toUTF8.toList.foldr (fun b acc =>
    let n := b.toNat
    if (65 ≤ n && n ≤ 90) || (97 ≤ n && n ≤ 122) || (48 ≤ n && n ≤ 57) ||
       n == 45 || n == 95 || n == 46 || n == 33 || n == 126 || n == 42 ||
       n == 39 || n == 40 || n == 41 then
      Char.ofNat n :: acc
    else
      '%' :: hexDigit (n / 16) :: hexDigit (n % 16) :: acc) [])

/-- An HTTP request handed to `makeRequest`. -/
structure RestRequest where
  method : String
  path : String
deriving DecidableEq

/-- Rest client state consulted by the session-scoped endpoints. -/
structure RestState where
  sessionId : Option String
deriving DecidableEq

/-- Rest.js `_getSessionPath()`: throws `Session ID required` when no session
is set. -/
def _getSessionPath (r : RestState) : Except String String :=
  match r.sessionId with
  | none => .error "Session ID required"
  | some sid => .ok ("/v4/sessions/" ++ sid)

/-- Rest.js `updatePlayer({guildId, data, noReplace})`.  The returned state is
the client state after the call (the method performs no writes). -/
def updatePlayer (r : RestState) (guildId : String) (noReplace : Bool) :
    Except String RestRequest × RestState :=
  let query := if noReplace then "?noReplace=true" else "?noReplace=false"
  match _getSessionPath r with
  | .error e => (.error e, r)
  | .ok sp => (.ok ⟨"PATCH", sp ++ "/players/" ++ guildId ++ query⟩, r)

/-- Rest.js `getPlayer(guildId)`. -/
def getPlayer (r : RestState) (guildId : String) :
    Except String RestRequest × RestState :=
  match _getSessionPath r with
  | .error e => (.error e, r)
  | .ok sp => (.ok ⟨"GET", sp ++ "/players/" ++ guildId⟩, r)

/-- Rest.js `getPlayers()`. -/
def getPlayers (r : RestState) : Except String RestRequest × RestState :=
  match _getSessionPath r with
  | .error e => (.error e, r)
  | .ok sp => (.ok ⟨"GET", sp ++ "/players"⟩, r)

/-- Rest.js `destroyPlayer(guildId)`. -/
def destroyPlayer (r : RestState) (guildId : String) :
    Except String RestRequest × RestState :=
  match _getSessionPath r with
  | .error e => (.error e, r)
  | .ok sp => (.ok ⟨"DELETE", sp ++ "/players/" ++ guildId⟩, r)

/-- Rest.js `decodeTrack(encodedTrack)`: validates locally before any request
is built. -/
def decodeTrack (s : String) : Except String RestRequest :=
  if _isValidBase64 s = false then .error "Invalid encoded track format"
  else .ok ⟨"GET", "/v4/decodetrack?encodedTrack=" ++ encodeURIComponentStr s⟩

end Rest

namespace Node

/-- Node.js static backoff constants. -/
def BACKOFF_MULTIPLIER : ℚ := 3 / 2
/-- Node.js MAX_BACKOFF (ms). -/
def MAX_BACKOFF : ℚ := 60000
/-- Node.js JITTER_MAX (ms). -/
def JITTER_MAX : ℚ := 2000
/-- Node.js JITTER_FACTOR. -/
def JITTER_FACTOR : ℚ := 1 / 5

/-- Node.js `_calcBackoff(attempt)`; `r` is the `Math.random()` sample in
[0, 1). -/
def _calcBackoff (reconnectTimeout : ℚ) (attempt : ℕ) (r : ℚ) : ℚ :=
  let baseBackoff := reconnectTimeout * BACKOFF_MULTIPLIER ^ (min attempt 10)
  let maxJitter := min JITTER_MAX (baseBackoff * JITTER_FACTOR)
  min (baseBackoff + r * maxJitter) MAX_BACKOFF

/-- Node.js `stats.memory`. -/
structure MemoryStats where
  free : ℚ
  used : ℚ
  allocated : ℚ
  reservable : ℚ
deriving DecidableEq

/-- Node.js `stats.cpu`. -/
structure CpuStats where
  cores : ℚ
  systemLoad : ℚ
  lavalinkLoad : ℚ
deriving DecidableEq

/-- Node.js `stats.frameStats`. -/
structure FrameStatsV where
  sent : ℚ
  nulled : ℚ
  deficit : ℚ
deriving DecidableEq

/-- Node.js `this.stats`. -/
structure NodeStats where
  players : ℚ
  playingPlayers : ℚ
  uptime : ℚ
  ping : ℚ
  memory : MemoryStats
  cpu : CpuStats
  frameStats : FrameStatsV
deriving DecidableEq

/-- Incoming `memory` object of a stats frame (`none` per missing key). -/
structure MemoryPatch where
  free : Option ℚ
  used : Option ℚ
  allocated : Option ℚ
  reservable : Option ℚ
deriving DecidableEq

/-- Incoming `cpu` object of a stats frame. -/
structure CpuPatch where
  cores : Option ℚ
  systemLoad : Option ℚ
  lavalinkLoad : Option ℚ
deriving DecidableEq

/-- Incoming `frameStats` object of a stats frame. -/
structure FramePatch where
  sent : Option ℚ
  nulled : Option ℚ
  deficit : Option ℚ
deriving DecidableEq

/-- An incoming stats frame (`none` per absent key / sub-object). -/
structure StatsPayload where
  players : Option ℚ
  playingPlayers : Option ℚ
  uptime : Option ℚ
  ping : Option ℚ
  memory : Option MemoryPatch
  cpu : Option CpuPatch
  frameStats : Option FramePatch
deriving DecidableEq

/-- Models Node.js `if (payload.x !== undefined) s.x = payload.x`. -/
def mergeField (x : Option ℚ) (prev : ℚ) : ℚ :=
  match x with
  | some v => v
  | none => prev

/-- Node.js `_updateStats(payload)` as a function on the stats record. -/
def _updateStats (s : NodeStats) (p : StatsPayload) : NodeStats :=
  { players := mergeField p.players s.players
    playingPlayers := mergeField p.playingPlayers s.playingPlayers
    uptime := mergeField p.uptime s.uptime
    ping := mergeField p.ping s.ping
    memory :=
      match p.memory with
      | none => s.memory
      | some pm =>
        { free := mergeField pm.free s.memory.free
          used := mergeField pm.used s.memory.used
          allocated := mergeField pm.allocated s.memory.allocated
          reservable := mergeField pm.reservable s.memory.reservable }
    cpu :=
      match p.cpu with
      | none => s.cpu
      | some pc =>
        { cores := mergeField pc.cores s.cpu.cores
          systemLoad := mergeField pc.systemLoad s.cpu.systemLoad
          lavalinkLoad := mergeField pc.lavalinkLoad s.cpu.lavalinkLoad }
    frameStats :=
      match p.frameStats with
      | none => s.frameStats
      | some pf =>
        { sent := mergeField pf.sent s.frameStats.sent
          nulled := mergeField pf.nulled s.frameStats.nulled
          deficit := mergeField pf.deficit s.frameStats.deficit } }

/-- A stats frame with every recognized key absent. -/
def emptyStatsPayload : StatsPayload :=
  ⟨none, none, none, none, none, none, none⟩

end Node

/-! Concrete sample states used to evaluate the theorems on explicit
inputs. -/

/-- A resolved sample track. -/
def tDemo : Track := ⟨some "QAAA", none, some "youtube", some "id0", 180000⟩

/-- A connected, idle, non-destroyed Player. -/
def pIdle : PlayerState :=
  { destroyed := false, connected := true, playing := false, paused := false,
    isAutoplayEnabled := false, isAutoplay := false, reconnecting := false,
    leaveOnEnd := false, current := none, queue := [], previousTracks := [],
    previousIdentifiers := [], autoplaySeed := none, loop := 0, volume := 100,
    position := 0, timestamp := 0, voiceChannel := some "vc1",
    textChannel := some "tc1", deaf := true, mute := false }

/-- The idle Player playing `tDemo` with an empty queue. -/
def pPlaying : PlayerState :=
  { pIdle with playing := true, current := some tDemo }

/-- The non-integral JS number 1.5 as a rational. -/
def threeHalves : ℚ := ⟨3, 2, by decide, by decide⟩

/-- A connection holding fresh voice data with nothing sent yet and a pending
update scheduled at t = 0. -/
def cFresh : Connection.ConnState :=
  ⟨false, some "sess", some "tok", some "end", some "chan", 100, "", some 0⟩

/-- The fingerprint of `cFresh`. -/
def keySent : String := "sess|tok|end|chan|100"

/-- `cFresh` right after its pending update was flushed and sent. -/
def cSent : Connection.ConnState :=
  { cFresh with lastSentVoiceKey := keySent, pending := none }

/-- `cSent` with a second pending update and unchanged voice fields. -/
def cSecond : Connection.ConnState :=
  { cSent with pending := some 1 }

/-! ## Helper lemmas -/

namespace Player

@[simp] lemma spotifySeedUpdate_queue (p : PlayerState) (t : Track) :
    (spotifySeedUpdate p t).queue = p.queue := by
  unfold spotifySeedUpdate
  split <;> rfl

@[simp] lemma spotifySeedUpdate_playing (p : PlayerState) (t : Track) :
    (spotifySeedUpdate p t).playing = p.playing := by
  unfold spotifySeedUpdate
  split <;> rfl

@[simp] lemma spotifySeedUpdate_current (p : PlayerState) (t : Track) :
    (spotifySeedUpdate p t).current = p.current := by
  unfold spotifySeedUpdate
  split <;> rfl

@[simp] lemma spotifySeedUpdate_connected (p : PlayerState) (t : Track) :
    (spotifySeedUpdate p t).connected = p.connected := by
  unfold spotifySeedUpdate
  split <;> rfl

@[simp] lemma spotifySeedUpdate_destroyed (p : PlayerState) (t : Track) :
    (spotifySeedUpdate p t).destroyed = p.destroyed := by
  unfold spotifySeedUpdate
  split <;> rfl

lemma pushPrevious_head (prevs : List Track) (t : Track) :
    (pushPrevious prevs t).head? = some t := rfl

/-- `play` on a queue whose head already carries an encoded blob starts that
head immediately. -/
lemma play_cons (p : PlayerState) (item : Track) (rest : List Track)
    (hq : p.queue = item :: rest) (hd : p.destroyed = false)
    (hc : p.connected = true) (he : item.encoded.isSome = true) :
    play p = { p with current := some item, playing := true, paused := false,
                      position := 0, queue := rest } := by
  rw [play.eq_def]
  split
  · rename_i heq
    rw [hq] at heq
    cases heq
  · rename_i item2 rest2 heq
    rw [hq] at heq
    injection heq with h1 h2
    subst h1
    subst h2
    rw [if_neg (by simp [hd, hc])]
    simp [he]

/-- `play` preserves the invariant `playing ⇒ current ≠ null`. -/
lemma play_inv (p : PlayerState) (h : Inv p) : Inv (play p) := by
  suffices H : ∀ (l : List Track) (q : PlayerState),
      Inv q → q.queue = l → Inv (play q) by
    exact H p.queue p h rfl
  intro l
  induction l with
  | nil =>
    intro q hqInv hq
    rw [play.eq_def]
    split
    · exact hqInv
    · rename_i item2 rest2 heq
      rw [hq] at heq
      cases heq
  | cons item rest ih =>
    intro q hqInv hq
    rw [play.eq_def]
    split
    · exact hqInv
    · rename_i item2 rest2 heq
      rw [hq] at heq
      injection heq with h1 h2
      subst h1
      subst h2
      by_cases hdc : q.destroyed = true ∨ q.connected = false
      · rw [if_pos hdc]
        exact hqInv
      · rw [if_neg hdc]
        cases hx : item.encoded.isSome with
        | true =>
          simp only [hx, if_true]
          intro _
          simp
        | false =>
          simp only [hx, Bool.false_eq_true, if_false]
          cases hre : item.resolveEncoded with
          | none =>
            simp only [Option.map_none']
            split
            · intro hp
              exact hqInv hp
            · exact ih _ (fun hp => hqInv hp) rfl
          | some e =>
            simp only [Option.map_some']
            cases hx2 : ({ item with encoded := e } : Track).encoded.isSome with
            | true =>
              simp only [hx2, if_true]
              intro _
              simp
            | false =>
              simp only [hx2, Bool.false_eq_true, if_false]
              split
              · intro _
                simp
              · exact ih _ (fun _ => by simp) rfl

/-- `stop` preserves the invariant. -/
lemma stop_inv (p : PlayerState) (h : Inv p) : Inv (stop p) := by
  unfold stop
  split
  · exact h
  · intro hp
    simp at hp

/-- On a non-destroyed player, `stop` establishes the invariant outright:
either `playing` was already false or it is reset to false. -/
lemma stop_inv_free (p : PlayerState) (hd : p.destroyed = false) :
    Inv (stop p) := by
  unfold stop
  split
  · rename_i hcond
    rcases hcond with hcond | hcond
    · rw [hd] at hcond
      cases hcond
    · intro hp
      rw [hp] at hcond
      cases hcond
  · intro hp
    simp at hp

/-- `autoplay` establishes the invariant whenever its guards pass and any
candidate returned by the provider oracle is directly playable. -/
lemma autoplay_inv (q : PlayerState) (oracle : Option Track) (prev : Track)
    (hd : q.destroyed = false) (hc : q.connected = true)
    (hen : q.isAutoplayEnabled = true) (hqnil : q.queue = [])
    (hprev : previous q = some prev)
    (hps : prev.sourceName.isSome = true) (hpi : prev.identifier.isSome = true)
    (horacle : ∀ t, oracle = some t → t.encoded.isSome = true) :
    Inv (autoplay q oracle) := by
  obtain ⟨sn, hsn⟩ := Option.isSome_iff_exists.mp hps
  obtain ⟨idv, hid⟩ := Option.isSome_iff_exists.mp hpi
  unfold autoplay
  rw [if_neg (by simp [hd, hen, hprev, hqnil])]
  rw [hprev]
  simp only
  rw [if_neg (by simp [hsn, hid])]
  cases horc : oracle with
  | some t =>
    have he := horacle t horc
    dsimp only
    rw [play_cons _ t []
      (by simp [hqnil])
      (by simp [hd])
      (by simp [hc]) he]
    intro _
    simp
  | none =>
    dsimp only
    exact stop_inv_free _ (by simp [hd])

/-- `trackEnd` establishes the invariant on a live, connected player whenever
a failure-ending still has queued work, every queued track (the re-added one
and any autoplay candidate included) is directly playable, and — if the
autoplay branch can run — a previous track with source metadata exists. -/
lemma trackEnd_core (q : PlayerState) (track : Option Track) (reason : String)
    (oracle : Option Track)
    (hd : q.destroyed = false) (hc : q.connected = true)
    (hq : ∀ t ∈ q.queue, t.encoded.isSome = true)
    (htr : ∀ t, track = some t → t.encoded.isSome = true)
    (hfail : isFailureReason reason = true → q.queue ≠ [])
    (horacle : ∀ t, oracle = some t → t.encoded.isSome = true)
    (hauto : q.isAutoplayEnabled = true → reason ≠ "replaced" →
      ∃ t, prevAfterEnd q track = some t ∧ t.sourceName.isSome = true ∧
        t.identifier.isSome = true) :
    Inv (trackEnd q track reason oracle) := by
  unfold trackEnd
  rw [if_neg (by simp [hd])]
  cases htk : track with
  | some t0 =>
    have he0 : t0.encoded.isSome = true := htr t0 htk
    try dsimp only
    cases hf : isFailureReason reason with
    | true =>
      rw [if_pos rfl]
      have hqne : q.queue ≠ [] := hfail hf
      obtain ⟨item, rest, hqeq⟩ : ∃ it rs, q.queue = it :: rs := by
        cases hql : q.queue with
        | nil => exact absurd hql hqne
        | cons a b => exact ⟨a, b, rfl⟩
      rw [if_neg (by simp [hqeq])]
      rw [play_cons _ item rest (by simp [hqeq]) (by simp [hd]) (by simp [hc])
        (hq item (by rw [hqeq]; exact List.mem_cons_self _ _))]
      intro _
      simp
    | false =>
      rw [if_neg (by simp)]
      by_cases hfin : (reason == "finished") = true ∧ (q.loop = 1 ∨ q.loop = 2)
      · -- the ended track is re-queued, so the queue is non-empty
        rw [if_pos hfin]
        try dsimp only
        obtain ⟨item, rest, hqeq⟩ : ∃ it rs, q.queue ++ [t0] = it :: rs := by
          cases hql : q.queue with
          | nil => exact ⟨t0, [], by simp [hql]⟩
          | cons a b => exact ⟨a, b ++ [t0], by simp [hql]⟩
        have hmem : item ∈ q.queue ++ [t0] := by
          rw [hqeq]
          exact List.mem_cons_self _ _
        have hitem : item.encoded.isSome = true := by
          rcases List.mem_append.mp hmem with hm | hm
          · exact hq item hm
          · simp at hm
            rw [hm]
            exact he0
        rw [if_pos (by simp [hqeq])]
        rw [play_cons _ item rest (by simp [hqeq]) (by simp [hd])
          (by simp [hc]) hitem]
        intro _
        simp
      · rw [if_neg hfin]
        try dsimp only
        by_cases hq3 : q.queue = []
        · rw [if_neg (by simp [hq3])]
          by_cases har : q.isAutoplayEnabled = true ∧ reason ≠ "replaced"
          · rw [if_pos (by simp [har.1, har.2])]
            obtain ⟨pt, hpt, hpts, hpti⟩ := hauto har.1 har.2
            refine autoplay_inv _ oracle pt (by simp [hd]) (by simp [hc])
              (by simp [har.1]) (by simp [hq3]) ?_ hpts hpti horacle
            simp only [prevAfterEnd, htk] at hpt
            injection hpt with hpt
            subst hpt
            simp [previous, pushPrevious]
          · rw [if_neg (by simpa using har)]
            try dsimp only
            by_cases hle : q.leaveOnEnd = true
            · rw [if_pos (by simp [hle])]
              intro hp
              simp [destroy] at hp
            · rw [if_neg (by simp at hle ⊢; exact hle)]
              intro hp
              simp at hp
        · obtain ⟨item, rest, hqeq⟩ : ∃ it rs, q.queue = it :: rs := by
            cases hql : q.queue with
            | nil => exact absurd hql hq3
            | cons a b => exact ⟨a, b, rfl⟩
          rw [if_pos (by simp [hqeq])]
          rw [play_cons _ item rest (by simp [hqeq]) (by simp [hd])
            (by simp [hc])
            (hq item (by rw [hqeq]; exact List.mem_cons_self _ _))]
          intro _
          simp
  | none =>
    try dsimp only
    cases hf : isFailureReason reason with
    | true =>
      rw [if_pos rfl]
      have hqne : q.queue ≠ [] := hfail hf
      obtain ⟨item, rest, hqeq⟩ : ∃ it rs, q.queue = it :: rs := by
        cases hql : q.queue with
        | nil => exact absurd hql hqne
        | cons a b => exact ⟨a, b, rfl⟩
      rw [if_neg (by simp [hqeq])]
      rw [play_cons _ item rest (by simp [hqeq]) (by simp [hd]) (by simp [hc])
        (hq item (by rw [hqeq]; exact List.mem_cons_self _ _))]
      intro _
      simp
    | false =>
      rw [if_neg (by simp)]
      try dsimp only
      by_cases hq3 : q.queue = []
      · rw [if_neg (by simp [hq3])]
        by_cases har : q.isAutoplayEnabled = true ∧ reason ≠ "replaced"
        · rw [if_pos (by simp [har.1, har.2])]
          obtain ⟨pt, hpt, hpts, hpti⟩ := hauto har.1 har.2
          refine autoplay_inv _ oracle pt (by simp [hd]) (by simp [hc])
            (by simp [har.1]) (by simp [hq3]) ?_ hpts hpti horacle
          simp only [prevAfterEnd, htk] at hpt
          simpa [previous] using hpt
        · rw [if_neg (by simpa using har)]
          try dsimp only
          by_cases hle : q.leaveOnEnd = true
          · rw [if_pos (by simp [hle])]
            intro hp
            simp [destroy] at hp
          · rw [if_neg (by simp at hle ⊢; exact hle)]
            intro hp
            simp at hp
      · obtain ⟨item, rest, hqeq⟩ : ∃ it rs, q.queue = it :: rs := by
          cases hql : q.queue with
          | nil => exact absurd hql hq3
          | cons a b => exact ⟨a, b, rfl⟩
        rw [if_pos (by simp [hqeq])]
        rw [play_cons _ item rest (by simp [hqeq]) (by simp [hd])
          (by simp [hc])
          (hq item (by rw [hqeq]; exact List.mem_cons_self _ _))]
        intro _
        simp

end Player

/-! ## Claim theorems -/

/-- C3: two consecutive voice updates with an equal fingerprint
(sessionId, token, endpoint, channelId, volume) are never both sent: when the
fingerprint computed at flush time equals the last sent fingerprint, the
pending payload is dropped instead of being passed to
`RestClient.updatePlayer`.  Part 1: an equal-fingerprint flush sends nothing;
part 2: a successful send records the sent key as `lastSentVoiceKey` (and that
key is the flush-time fingerprint); part 3: after a send of fingerprint `k`,
any later flush from a state still fingerprinting to `k` is dropped. -/
theorem c3_fingerprint_dedup :
    (∀ (c : Connection.ConnState) (now : ℕ),
        Connection._makeVoiceKey c = c.lastSentVoiceKey →
        (Connection._executeVoiceUpdate c now).1 = none) ∧
    (∀ (c c2 : Connection.ConnState) (now : ℕ) (k : String),
        Connection._executeVoiceUpdate c now = (some k, c2) →
        c2.lastSentVoiceKey = k ∧ Connection._makeVoiceKey c2 = k) ∧
    (∀ (c c2 d : Connection.ConnState) (now now2 : ℕ) (k : String),
        Connection._executeVoiceUpdate c now = (some k, c2) →
        d.lastSentVoiceKey = c2.lastSentVoiceKey →
        Connection._makeVoiceKey d = k →
        (Connection._executeVoiceUpdate d now2).1 = none) := by
  have key_stable : ∀ (c : Connection.ConnState),
      Connection._makeVoiceKey { c with pending := none } =
        Connection._makeVoiceKey c := fun _ => rfl
  have part1 : ∀ (c : Connection.ConnState) (now : ℕ),
      Connection._makeVoiceKey c = c.lastSentVoiceKey →
      (Connection._executeVoiceUpdate c now).1 = none := by
    intro c now hk
    unfold Connection._executeVoiceUpdate
    cases hd : c.destroyed with
    | true => simp [hd]
    | false =>
      cases hp : c.pending with
      | none => simp [hd, hp]
      | some ts =>
        simp only [hd, Bool.false_eq_true, if_false, hp]
        split
        · rfl
        · split
          · rfl
          · rename_i hne
            exact absurd hk hne
  have part2 : ∀ (c c2 : Connection.ConnState) (now : ℕ) (k : String),
      Connection._executeVoiceUpdate c now = (some k, c2) →
      c2.lastSentVoiceKey = k ∧ Connection._makeVoiceKey c2 = k := by
    intro c c2 now k hsend
    unfold Connection._executeVoiceUpdate at hsend
    split at hsend
    · simp at hsend
    · cases hp : c.pending with
      | none => rw [hp] at hsend; simp at hsend
      | some ts =>
        rw [hp] at hsend
        simp only at hsend
        split at hsend
        · simp at hsend
        · split at hsend
          · simp at hsend
          · have h1 := congrArg Prod.fst hsend
            have h2 := congrArg Prod.snd hsend
            simp only at h1 h2
            injection h1 with h1
            subst h1
            constructor
            · rw [← h2]
            · rw [← h2]
              exact key_stable c
  refine ⟨part1, part2, ?_⟩
  intro c c2 d now now2 k hsend hlast hkey
  apply part1
  rw [hkey, hlast, (part2 c c2 now k hsend).1]

/-- C3 witness: a second flush with unchanged voice fields right after a
successful send is dropped. -/
theorem c3_witness :
    (Connection._executeVoiceUpdate cSecond 2).1 = none :=
  c3_fingerprint_dedup.2.2 cFresh cSent cSecond 3 2 keySent (by decide)
    (by decide) (by decide)

/-- C4 counterexample: the empty string has length mod 4 ≠ 1 and (vacuously)
only characters from the base64 alphabet, yet `_isValidBase64` rejects it, so
the validator does not accept every such string. -/
theorem c4_counterexample :
    ("".length % 4 ≠ 1 ∧ "".toList.all Rest.isBase64Code = true) ∧
    Rest._isValidBase64 "" = false := by
  decide

/-- C4 amended: the validator accepts every non-empty string whose length mod
4 ≠ 1 and whose characters all lie in `[A-Za-z0-9+/=_-]`, and `decodeTrack`
on any input the validator rejects fails locally with
`Invalid encoded track format` without producing a request. -/
theorem c4_amended :
    (∀ s : String, s ≠ "" → s.length % 4 ≠ 1 →
        s.toList.all Rest.isBase64Code = true →
        Rest._isValidBase64 s = true) ∧
    (∀ s : String, Rest._isValidBase64 s = false →
        Rest.decodeTrack s = .error "Invalid encoded track format") := by
  constructor
  · intro s h1 h2 h3
    unfold Rest._isValidBase64
    rw [if_neg h1]
    simp only [h3]
    rw [if_neg (by simpa using h2)]
  · intro s hs
    unfold Rest.decodeTrack
    rw [hs]
    rfl

/-- C4 witness: the amended theorem evaluated on `abcd` (accepted) and on the
rejected input `%%`. -/
theorem c4_witness :
    Rest._isValidBase64 "abcd" = true ∧
    Rest.decodeTrack "%%" = .error "Invalid encoded track format" :=
  ⟨c4_amended.1 "abcd" (by decide) (by decide) (by decide),
   c4_amended.2 "%%" (by decide)⟩

/-- C5 counterexample: the JS number 1.5 is neither 0, 1, 2 nor a loop-mode
name, yet `setLoop` on a non-destroyed player accepts it and stores it in
`loop` instead of raising an error. -/
theorem c5_counterexample :
    Player.setLoop pIdle (Sum.inl threeHalves) =
      .ok { pIdle with loop := threeHalves } ∧
    ¬(threeHalves = 0 ∨ threeHalves = 1 ∨ threeHalves = 2) ∧
    pIdle.loop ≠ threeHalves := by
  decide

/-- C5 amended: on a non-destroyed Player, `setLoop` stores any number in
[0, 2] (in particular the integers 0, 1, 2) and the names none/track/queue
(mapped to 0/1/2), and raises `Invalid loop mode` — leaving `loop`
unchanged — for numbers outside [0, 2] and for any other string. -/
theorem c5_amended (p : PlayerState) (h : p.destroyed = false) :
    (∀ q : ℚ, 0 ≤ q → q ≤ 2 →
        Player.setLoop p (Sum.inl q) = .ok { p with loop := q }) ∧
    (∀ q : ℚ, q < 0 ∨ 2 < q →
        Player.setLoop p (Sum.inl q) = .error "Invalid loop mode") ∧
    Player.setLoop p (Sum.inr "none") = .ok { p with loop := 0 } ∧
    Player.setLoop p (Sum.inr "track") = .ok { p with loop := 1 } ∧
    Player.setLoop p (Sum.inr "queue") = .ok { p with loop := 2 } ∧
    (∀ s : String, s ≠ "none" → s ≠ "track" → s ≠ "queue" →
        Player.setLoop p (Sum.inr s) = .error "Invalid loop mode") := by
  refine ⟨?_, ?_, ?_, ?_, ?_, ?_⟩
  · intro q h0 h2
    unfold Player.setLoop
    rw [if_neg (by simp [h])]
    simp only
    rw [if_neg (by push_neg; constructor <;> [linarith; linarith])]
  · intro q hout
    unfold Player.setLoop
    rw [if_neg (by simp [h])]
    simp only
    rcases hout with hlt | hgt
    · rw [if_pos (Or.inl hlt)]
    · rw [if_pos (Or.inr hgt)]
  · unfold Player.setLoop
    rw [if_neg (by simp [h])]
    simp [Player.loopNameIndex]
  · unfold Player.setLoop
    rw [if_neg (by simp [h])]
    simp [Player.loopNameIndex]
  · unfold Player.setLoop
    rw [if_neg (by simp [h])]
    simp [Player.loopNameIndex]
  · intro s hs1 hs2 hs3
    unfold Player.setLoop
    rw [if_neg (by simp [h])]
    simp only [Player.loopNameIndex, hs1, hs2, hs3, if_false]
    rw [if_pos (Or.inl (by norm_num))]

/-- C5 witness: the amended theorem evaluated at the name `track`. -/
theorem c5_witness :
    Player.setLoop pIdle (Sum.inr "track") = .ok { pIdle with loop := 1 } :=
  (c5_amended pIdle rfl).2.2.2.1

/-- C6: for every reconnect attempt, the backoff delay equals
min(base + jitter, MAX_BACKOFF) with base = reconnectTimeout · 1.5^min(n,10)
and jitter = r · min(JITTER_MAX, base · 0.2) ∈ [0, min(2000, base · 0.2)] for
the random sample r ∈ [0, 1]; in particular the delay never exceeds
MAX_BACKOFF = 60000 ms. -/
theorem c6_backoff_bounded (rt : ℚ) (n : ℕ) (r : ℚ)
    (hr0 : 0 ≤ r) (hr1 : r ≤ 1) (hrt : 0 ≤ rt) :
    (∃ jitter : ℚ, 0 ≤ jitter ∧
        jitter ≤ min Node.JITTER_MAX
          (rt * Node.BACKOFF_MULTIPLIER ^ (min n 10) * Node.JITTER_FACTOR) ∧
        Node._calcBackoff rt n r =
          min (rt * Node.BACKOFF_MULTIPLIER ^ (min n 10) + jitter)
            Node.MAX_BACKOFF) ∧
    Node._calcBackoff rt n r ≤ Node.MAX_BACKOFF := by
  have hbm : (0 : ℚ) ≤ Node.BACKOFF_MULTIPLIER := by
    norm_num [Node.BACKOFF_MULTIPLIER]
  have hbase : 0 ≤ rt * Node.BACKOFF_MULTIPLIER ^ (min n 10) :=
    mul_nonneg hrt (pow_nonneg hbm _)
  have hjf : (0 : ℚ) ≤ Node.JITTER_FACTOR := by norm_num [Node.JITTER_FACTOR]
  have hjm : (0 : ℚ) ≤ Node.JITTER_MAX := by norm_num [Node.JITTER_MAX]
  have hmj : 0 ≤ min Node.JITTER_MAX
      (rt * Node.BACKOFF_MULTIPLIER ^ (min n 10) * Node.JITTER_FACTOR) :=
    le_min hjm (mul_nonneg hbase hjf)
  have hjle : r * min Node.JITTER_MAX
      (rt * Node.BACKOFF_MULTIPLIER ^ (min n 10) * Node.JITTER_FACTOR) ≤
      min Node.JITTER_MAX
        (rt * Node.BACKOFF_MULTIPLIER ^ (min n 10) * Node.JITTER_FACTOR) := by
    nlinarith [hmj, hr0, hr1]
  have hdef : Node._calcBackoff rt n r =
      min (rt * Node.BACKOFF_MULTIPLIER ^ (min n 10) +
        r * min Node.JITTER_MAX
          (rt * Node.BACKOFF_MULTIPLIER ^ (min n 10) * Node.JITTER_FACTOR))
        Node.MAX_BACKOFF := rfl
  refine ⟨⟨r * min Node.JITTER_MAX
      (rt * Node.BACKOFF_MULTIPLIER ^ (min n 10) * Node.JITTER_FACTOR),
      mul_nonneg hr0 hmj, hjle, hdef⟩, ?_⟩
  rw [hdef]
  exact min_le_right _ _

/-- C6 witness: the bound evaluated at reconnectTimeout = 2000, attempt 1,
random sample 1/2. -/
theorem c6_witness : Node._calcBackoff 2000 1 (1 / 2) ≤ Node.MAX_BACKOFF :=
  (c6_backoff_bounded 2000 1 (1 / 2) (by norm_num) (by norm_num)
    (by norm_num)).2

/-- C7: on a non-destroyed Player the stored volume after `setVolume v` is
exactly `clamp v`, which always lies in [0, 200]; values below 0 clamp to 0,
values above 200 clamp to 200, and a value that does not coerce to a number
(NaN) maps to 100. -/
theorem c7_volume_clamped (p : PlayerState) (v : Option ℚ)
    (h : p.destroyed = false) :
    (Player.setVolume p v).volume = Player.clamp v ∧
    0 ≤ (Player.setVolume p v).volume ∧
    (Player.setVolume p v).volume ≤ 200 ∧
    (∀ q : ℚ, q < 0 → Player.clamp (some q) = 0) ∧
    (∀ q : ℚ, 200 < q → Player.clamp (some q) = 200) ∧
    Player.clamp none = 100 := by
  have hrange : ∀ w : Option ℚ, 0 ≤ Player.clamp w ∧ Player.clamp w ≤ 200 := by
    intro w
    cases w with
    | none => norm_num [Player.clamp]
    | some q =>
      simp only [Player.clamp]
      split_ifs <;> constructor <;> linarith
  have hvol : (Player.setVolume p v).volume = Player.clamp v := by
    by_cases h1 : p.destroyed = true ∨ p.volume = Player.clamp v
    · have heq : Player.setVolume p v = p := by
        unfold Player.setVolume
        exact if_pos h1
      rw [heq]
      rcases h1 with h1 | h1
      · rw [h] at h1; cases h1
      · exact h1
    · have heq : Player.setVolume p v =
          { p with volume := Player.clamp v } := by
        unfold Player.setVolume
        exact if_neg h1
      rw [heq]
  refine ⟨hvol, ?_, ?_, ?_, ?_, rfl⟩
  · rw [hvol]; exact (hrange v).1
  · rw [hvol]; exact (hrange v).2
  · intro q hq
    simp only [Player.clamp]
    rw [if_pos hq]
  · intro q hq
    simp only [Player.clamp]
    rw [if_neg (by linarith), if_pos hq]

/-- C7 witness: storing 300 on the idle player clamps to 200. -/
theorem c7_witness : (Player.setVolume pIdle (some 300)).volume = 200 := by
  rw [(c7_volume_clamped pIdle (some 300) rfl).1]
  decide

/-- C8: merging a stats frame keeps the previous value of every recognized
key absent from the frame, replaces the stored value for every key present,
and touches no other field: each leaf field of the merged record equals the
frame's value when supplied and the prior value otherwise, and the empty
frame leaves the record unchanged. -/
theorem c8_stats_merge (s : Node.NodeStats) (p : Node.StatsPayload) :
    (Node._updateStats s p).players = p.players.getD s.players ∧
    (Node._updateStats s p).playingPlayers =
      p.playingPlayers.getD s.playingPlayers ∧
    (Node._updateStats s p).uptime = p.uptime.getD s.uptime ∧
    (Node._updateStats s p).ping = p.ping.getD s.ping ∧
    (Node._updateStats s p).memory.free =
      (p.memory.bind Node.MemoryPatch.free).getD s.memory.free ∧
    (Node._updateStats s p).memory.used =
      (p.memory.bind Node.MemoryPatch.used).getD s.memory.used ∧
    (Node._updateStats s p).memory.allocated =
      (p.memory.bind Node.MemoryPatch.allocated).getD s.memory.allocated ∧
    (Node._updateStats s p).memory.reservable =
      (p.memory.bind Node.MemoryPatch.reservable).getD s.memory.reservable ∧
    (Node._updateStats s p).cpu.cores =
      (p.cpu.bind Node.CpuPatch.cores).getD s.cpu.cores ∧
    (Node._updateStats s p).cpu.systemLoad =
      (p.cpu.bind Node.CpuPatch.systemLoad).getD s.cpu.systemLoad ∧
    (Node._updateStats s p).cpu.lavalinkLoad =
      (p.cpu.bind Node.CpuPatch.lavalinkLoad).getD s.cpu.lavalinkLoad ∧
    (Node._updateStats s p).frameStats.sent =
      (p.frameStats.bind Node.FramePatch.sent).getD s.frameStats.sent ∧
    (Node._updateStats s p).frameStats.nulled =
      (p.frameStats.bind Node.FramePatch.nulled).getD s.frameStats.nulled ∧
    (Node._updateStats s p).frameStats.deficit =
      (p.frameStats.bind Node.FramePatch.deficit).getD s.frameStats.deficit ∧
    Node._updateStats s Node.emptyStatsPayload = s := by
  obtain ⟨pl, pp, up, pg, mem, cp, fs⟩ := p
  refine ⟨?_, ?_, ?_, ?_, ?_, ?_, ?_, ?_, ?_, ?_, ?_, ?_, ?_, ?_, rfl⟩
  · cases pl <;> rfl
  · cases pp <;> rfl
  · cases up <;> rfl
  · cases pg <;> rfl
  · cases mem with
    | none => rfl
    | some pm => obtain ⟨a, b, c, d⟩ := pm; cases a <;> rfl
  · cases mem with
    | none => rfl
    | some pm => obtain ⟨a, b, c, d⟩ := pm; cases b <;> rfl
  · cases mem with
    | none => rfl
    | some pm => obtain ⟨a, b, c, d⟩ := pm; cases c <;> rfl
  · cases mem with
    | none => rfl
    | some pm => obtain ⟨a, b, c, d⟩ := pm; cases d <;> rfl
  · cases cp with
    | none => rfl
    | some pc => obtain ⟨a, b, c⟩ := pc; cases a <;> rfl
  · cases cp with
    | none => rfl
    | some pc => obtain ⟨a, b, c⟩ := pc; cases b <;> rfl
  · cases cp with
    | none => rfl
    | some pc => obtain ⟨a, b, c⟩ := pc; cases c <;> rfl
  · cases fs with
    | none => rfl
    | some pf => obtain ⟨a, b, c⟩ := pf; cases a <;> rfl
  · cases fs with
    | none => rfl
    | some pf => obtain ⟨a, b, c⟩ := pf; cases b <;> rfl
  · cases fs with
    | none => rfl
    | some pf => obtain ⟨a, b, c⟩ := pf; cases c <;> rfl

/-- C9: `extractRegion` is a pure function of the endpoint string (equal
inputs give equal outputs with no other state), and on
`c-gru20-abc.example` the `c-<aaa><digits>-` pattern on the lowercased first
hostname label yields `gru`. -/
theorem c9_extract_region :
    (∀ e : String, Connection.extractRegion e = Connection.extractRegion e) ∧
    Connection.extractRegion "c-gru20-abc.example" = "gru" :=
  ⟨fun _ => rfl, by decide⟩

/-- C10: with no session id set, each session-scoped Rest endpoint fails with
`Session ID required` before any request is built, and leaves the client
state unchanged. -/
theorem c10_session_required (r : Rest.RestState) (g : String) (nr : Bool)
    (h : r.sessionId = none) :
    Rest.updatePlayer r g nr = (.error "Session ID required", r) ∧
    Rest.getPlayer r g = (.error "Session ID required", r) ∧
    Rest.getPlayers r = (.error "Session ID required", r) ∧
    Rest.destroyPlayer r g = (.error "Session ID required", r) := by
  have hp : Rest._getSessionPath r = .error "Session ID required" := by
    unfold Rest._getSessionPath
    rw [h]
  refine ⟨?_, ?_, ?_, ?_⟩ <;>
    simp [Rest.updatePlayer, Rest.getPlayer, Rest.getPlayers,
      Rest.destroyPlayer, hp]

/-- C10 witness: `updatePlayer` on a sessionless client. -/
theorem c10_witness :
    Rest.updatePlayer ⟨none⟩ "g1" false =
      (.error "Session ID required", (⟨none⟩ : Rest.RestState)) :=
  (c10_session_required ⟨none⟩ "g1" false rfl).1

/-- C1 counterexample: on a live player with a voice channel and no
reconnection in flight, close code 4014 only emits socketClosed — it does not
initiate the reconnection sequence the claim asserts — while 4009 does. -/
theorem c1_counterexample :
    Player.socketClosed pIdle 4014 false =
      Player.SocketClosedEffect.emitSocketClosed ∧
    Player.socketClosed pIdle 4014 false ≠
      Player.SocketClosedEffect.beginReconnect (Player.mkSnapshot pIdle)
        true true 3 ∧
    Player.socketClosed pIdle 4009 false =
      Player.SocketClosedEffect.beginReconnect (Player.mkSnapshot pIdle)
        true true 3 := by
  decide

/-- C1 amended: for every non-destroyed Player handling a
WebSocketClosedEvent with close code c: c = 4022 emits socketClosed and
destroys; c = 4015 with a successful resume returns with no other effect;
c = 4015 with a failed resume, 4009 and 4006 initiate the voice-session
reconnection sequence (state snapshot, destroy with preserveClient and
skipRemote, up to 3 re-creation attempts) provided no reconnection is already
in flight and a voice channel is set; every other code — 4014 included —
emits socketClosed and takes no further action. -/
theorem c1_amended (p : PlayerState) (code : ℤ) (resumeOk : Bool)
    (h : p.destroyed = false) :
    (code = 4022 → Player.socketClosed p code resumeOk =
      Player.SocketClosedEffect.destroyAfterEmit) ∧
    (code = 4015 → resumeOk = true → Player.socketClosed p code resumeOk =
      Player.SocketClosedEffect.resumeSucceeded) ∧
    (((code = 4015 ∧ resumeOk = false) ∨ code = 4009 ∨ code = 4006) →
      p.reconnecting = false → p.voiceChannel.isSome = true →
      Player.socketClosed p code resumeOk =
        Player.SocketClosedEffect.beginReconnect (Player.mkSnapshot p)
          true true Player.RECONNECT_MAX) ∧
    (code ≠ 4022 → code ≠ 4015 → code ≠ 4009 → code ≠ 4006 →
      Player.socketClosed p code resumeOk =
        Player.SocketClosedEffect.emitSocketClosed) := by
  refine ⟨?_, ?_, ?_, ?_⟩
  · intro hc
    subst hc
    unfold Player.socketClosed
    rw [if_neg (by simp [h]), if_pos rfl]
  · intro hc hro
    subst hc
    subst hro
    unfold Player.socketClosed
    rw [if_neg (by simp [h]), if_neg (by norm_num), if_pos ⟨rfl, rfl⟩]
  · intro hcase hrec hvc
    obtain ⟨vc, hvcs⟩ := Option.isSome_iff_exists.mp hvc
    have hnotdead : ¬p.destroyed = true := by simp [h]
    rcases hcase with ⟨hc, hro⟩ | hc | hc
    · subst hc
      subst hro
      unfold Player.socketClosed
      rw [if_neg hnotdead, if_neg (by norm_num),
        if_neg (by rintro ⟨-, hb⟩; cases hb),
        if_neg (fun hcon => hcon (Or.inl rfl)),
        if_neg (by simp [hrec]), hvcs]
    · subst hc
      unfold Player.socketClosed
      rw [if_neg hnotdead, if_neg (by norm_num),
        if_neg (by rintro ⟨hx, -⟩; norm_num at hx),
        if_neg (fun hcon => hcon (Or.inr (Or.inl rfl))),
        if_neg (by simp [hrec]), hvcs]
    · subst hc
      unfold Player.socketClosed
      rw [if_neg hnotdead, if_neg (by norm_num),
        if_neg (by rintro ⟨hx, -⟩; norm_num at hx),
        if_neg (fun hcon => hcon (Or.inr (Or.inr rfl))),
        if_neg (by simp [hrec]), hvcs]
  · intro h22 h15 h09 h06
    unfold Player.socketClosed
    rw [if_neg (by simp [h]), if_neg h22,
      if_neg (by rintro ⟨hx, -⟩; exact h15 hx),
      if_pos (by rintro (hx | hx | hx) <;>
        [exact h15 hx; exact h09 hx; exact h06 hx])]

/-- C1 witness: close code 4022 on the idle live player emits socketClosed
and destroys it. -/
theorem c1_witness :
    Player.socketClosed pIdle 4022 false =
      Player.SocketClosedEffect.destroyAfterEmit :=
  (c1_amended pIdle 4022 false rfl).1 rfl

/-- C2 counterexample: a playing player whose track ends with reason
loadFailed on an empty queue comes out of the handler with playing still true
and current cleared to null, violating the claimed invariant at an observable
instant. -/
theorem c2_counterexample :
    (Player.trackEnd pPlaying (some tDemo) "loadFailed" none).playing = true ∧
    (Player.trackEnd pPlaying (some tDemo) "loadFailed" none).current =
      none := by
  decide

/-- C2 amended: `playing ⇒ current ≠ null` is preserved by play, stop, pause,
seek, destroy, trackError/trackStuck, by trackStart when a current track
exists, and by trackEnd on a connected player provided a failure-reason end
(loadFailed/cleanup) still has queued work, every queued or re-added track
and any autoplay candidate is directly playable, and the autoplay branch can
see a previous track with source metadata; the unguarded cases (the
failure-reason end with an empty queue among them) can leave playing = true
with current = null. -/
theorem c2_amended (p : PlayerState) (b : Bool) (pos : ℚ) (tr : Option Track)
    (reason : String) (oracle : Option Track) (h : Player.Inv p) :
    Player.Inv (Player.play p) ∧ Player.Inv (Player.stop p) ∧
    Player.Inv (Player.pause p b) ∧ Player.Inv (Player.seek p pos) ∧
    Player.Inv (Player.destroy p) ∧ Player.Inv (Player.trackError p) ∧
    (p.current.isSome = true → Player.Inv (Player.trackStart p)) ∧
    (p.connected = true →
      (∀ t ∈ p.queue, t.encoded.isSome = true) →
      (∀ t, tr = some t → t.encoded.isSome = true) →
      (Player.isFailureReason reason = true → p.queue ≠ []) →
      (∀ t, oracle = some t → t.encoded.isSome = true) →
      (p.isAutoplayEnabled = true → reason ≠ "replaced" →
        ∃ t, Player.prevAfterEnd p tr = some t ∧ t.sourceName.isSome = true ∧
          t.identifier.isSome = true) →
      Player.Inv (Player.trackEnd p tr reason oracle)) := by
  refine ⟨Player.play_inv p h, Player.stop_inv p h, ?_, ?_, ?_, ?_, ?_, ?_⟩
  · unfold Player.pause
    split
    · exact h
    · exact fun hp => h hp
  · unfold Player.seek
    split
    · exact h
    · exact fun hp => h hp
  · intro hp
    simp [Player.destroy] at hp
  · unfold Player.trackError
    split
    · exact h
    · exact Player.stop_inv p h
  · intro hcur
    unfold Player.trackStart
    split
    · exact h
    · exact fun _ => Option.ne_none_iff_isSome.mpr hcur
  · intro hc hq htr hfail horacle hauto
    cases hd : p.destroyed with
    | true =>
      unfold Player.trackEnd
      rw [if_pos hd]
      exact h
    | false =>
      exact Player.trackEnd_core p tr reason oracle hd hc hq htr hfail
        horacle hauto

/-- C2 witness: the amended theorem applied to the playing sample player
(stop conjunct). -/
theorem c2_witness : Player.Inv (Player.stop pPlaying) :=
  (c2_amended pPlaying false 0 none "x" none (by decide)).2.1

end AquaLink
